import Mathlib

/-!
Shallow embedding of the aggregation core of `src/app.py` (a pandas-based
reporting dashboard).  Dataframes are modelled as lists of structure rows;
pandas `groupby`/`nunique`/`merge`/`sort_values` become explicit list
operations, and floating-point percentages become exact rationals.
-/

namespace Siave

/-- A raw row of the coordinator spreadsheet, after the header promotion and
column renaming of `load_data_coordenadores` (lines 15-32 of `app.py`).
Nullable cells are `Option String`. -/
structure CoordRaw where
  gre : String
  inep : Option String
  escola : String
  rede : Option String
  polo : String
  coordenador : Option String
deriving Repr, DecidableEq

/-- Python `str.strip()`: remove leading and trailing whitespace.  Defined
by structural recursion over the character list so that proofs can
evaluate it. -/
def pyStrip (s : String) : String :=
  ⟨((s.data.dropWhile Char.isWhitespace).reverse.dropWhile
      Char.isWhitespace).reverse⟩

/-- Python `str.lower()` restricted to the alphabet this data uses: ASCII
letters plus the Latin-1 uppercase letters (`À`-`Þ`, excluding `×`), which
covers the accented Portuguese capitals such as `Ç` and `Ã`. -/
def pyToLower (s : String) : String :=
  ⟨s.data.map fun c =>
    if ('A' ≤ c && c ≤ 'Z') || ('À' ≤ c && c ≤ 'Þ' && c != '×') then
      Char.ofNat (c.toNat + 32)
    else c⟩

/-- Line 35 of `app.py`:
`~df["COORDENADOR"].fillna("").str.strip().str.lower().eq("sem informação")`. -/
def temCoordenador (coordenador : Option String) : Bool :=
  !(pyToLower (pyStrip (coordenador.getD "")) == "sem informação")

/-- Lines 38-40 of `app.py`: the friendly status label derived from
`TEM_COORDENADOR`. -/
def statusCoordenador (b : Bool) : String :=
  if b then "Com Coordenador" else "Sem Coordenador"

/-- A processed row of the coordinator table, as produced by
`load_data_coordenadores`. -/
structure CoordRow where
  gre : String
  inep : Option String
  escola : String
  rede : Option String
  polo : String
  coordenador : Option String
  tem_coordenador : Bool
  status_coordenador : String
deriving Repr, DecidableEq

/-- Embeds `load_data_coordenadores` (lines 10-42 of `app.py`), restricted to its
pure part: the derivation of `TEM_COORDENADOR` and `STATUS_COORDENADOR`
from the renamed raw rows. -/
def load_data_coordenadores (raw : List CoordRaw) : List CoordRow :=
  raw.map fun r =>
    { gre := r.gre, inep := r.inep, escola := r.escola, rede := r.rede,
      polo := r.polo, coordenador := r.coordenador,
      tem_coordenador := temCoordenador r.coordenador,
      status_coordenador := statusCoordenador (temCoordenador r.coordenador) }

/-- A row of the totals table (`load_data_totais`): the columns the
aggregation functions use.  Other descriptive columns are passed through
unchanged by the code and play no role. -/
structure TotalRow where
  gre : String
  polo : String
  escola : String
deriving Repr, DecidableEq

/-- pandas `Series.nunique`: the number of distinct values. -/
def nunique (l : List String) : Nat :=
  l.dedup.length

/-- pandas `df.groupby(key)[val].nunique().reset_index()`: one `(key, count)`
pair per distinct key value, the count being the number of distinct `val`
values among the rows of that group. -/
def groupNunique {α : Type} (rows : List α) (key val : α → String) :
    List (String × Nat) :=
  ((rows.map key).dedup).map fun k =>
    (k, nunique ((rows.filter fun r => key r == k).map val))

/-- pandas `pd.merge(left, right, on=key, how="left")` at row level: every
left row is kept; it is paired with each matching right row, or with `none`
when no right row matches. -/
def leftMergeOn {α β : Type} (left : List α) (right : List β)
    (lk : α → String) (rk : β → String) : List (α × Option β) :=
  left.flatMap fun a =>
    let ms := right.filter fun b => rk b == lk a
    if ms.isEmpty then [(a, none)] else ms.map fun b => (a, some b)

/-- One row of the per-GRE / per-Polo summary dataframes built by
`agg_por_gre` / `agg_por_polo`. -/
structure AggRow where
  key : String
  total_escolas : Nat
  escolas_com_coord : Nat
  perc_com_coord : ℚ
deriving Repr, DecidableEq

/-- Building a summary row from a merged pair (lines 101-104 of `app.py`):
`fillna(0)` on the missing coordinator count, then
`perc = escolas_com_coord / total_escolas * 100` (the `.fillna(0)` on the
percentage only concerns the 0/0 case, which rational division already
sends to 0). -/
def mkAggRow (p : (String × Nat) × Option (String × Nat)) : AggRow :=
  let cc : Nat := match p.2 with
    | some q => q.2
    | none => 0
  { key := p.1.1, total_escolas := p.1.2, escolas_com_coord := cc,
    perc_com_coord := (cc : ℚ) / (p.1.2 : ℚ) * 100 }

/-- The descending-percentage order used by `sort_values(by="perc_com_coord",
ascending=False)`. -/
def percGE (a b : AggRow) : Prop :=
  b.perc_com_coord ≤ a.perc_com_coord

instance : DecidableRel percGE :=
  fun a b => inferInstanceAs (Decidable (b.perc_com_coord ≤ a.perc_com_coord))

instance : IsTotal AggRow percGE :=
  ⟨fun a b => le_total b.perc_com_coord a.perc_com_coord⟩

instance : IsTrans AggRow percGE :=
  ⟨fun _ _ _ hab hbc => le_trans hbc hab⟩

/-- Embeds `sort_values(by="perc_com_coord", ascending=False)`. -/
def sortDesc (l : List AggRow) : List AggRow :=
  List.insertionSort percGE l

/-- Embeds `calcular_percentual_conclusao_diretores` (lines 64-76 of `app.py`). -/
def calcular_percentual_conclusao_diretores
    (df_coord : List CoordRow) (df_total : List TotalRow) : ℚ :=
  let total_escolas := nunique (df_total.map (·.escola))
  let escolas_com_coord :=
    nunique ((df_coord.filter (·.tem_coordenador)).map (·.escola))
  if total_escolas = 0 then 0
  else ((escolas_com_coord : ℚ) / (total_escolas : ℚ)) * 100

/-- Embeds `agg_por_gre` (lines 79-108 of `app.py`). -/
def agg_por_gre (df_coord : List CoordRow) (df_total : List TotalRow) :
    List AggRow :=
  let gre_totais := groupNunique df_total (·.gre) (·.escola)
  let gre_com_coord :=
    groupNunique (df_coord.filter (·.tem_coordenador)) (·.gre) (·.escola)
  sortDesc ((leftMergeOn gre_totais gre_com_coord (·.1) (·.1)).map mkAggRow)

/-- Embeds `agg_por_polo` (lines 111-141 of `app.py`). -/
def agg_por_polo (df_coord : List CoordRow) (df_total : List TotalRow)
    (gre : String) : List AggRow :=
  let total_polos :=
    groupNunique (df_total.filter fun r => r.gre == gre) (·.polo) (·.escola)
  let polos_com_coord :=
    groupNunique
      (df_coord.filter fun r => r.gre == gre && r.tem_coordenador)
      (·.polo) (·.escola)
  sortDesc ((leftMergeOn total_polos polos_com_coord (·.1) (·.1)).map mkAggRow)

/-- Lines 160-164 of `app.py`:
`df_coord.groupby("ESCOLA")["TEM_COORDENADOR"].max().to_dict()` followed by
`.map(mapa_coord).fillna(False)` — for a given school, the OR of
`TEM_COORDENADOR` over its coordinator-table rows, `false` when the school
is absent from the coordinator table. -/
def mapaCoordenador (df_coord : List CoordRow) (escola : String) : Bool :=
  (df_coord.filter fun r => r.escola == escola).any (·.tem_coordenador)

/-- A record of the selected region+hub slice of the totals table after the
enrichment of lines 166-169 of `app.py`. -/
structure RegistroPolo where
  gre : String
  polo : String
  escola : String
  tem_coordenador : Bool
  status_coordenador : String
deriving Repr, DecidableEq

/-- A row of the status summary built by `resumo_status_polo`. -/
structure StatusRow where
  status_coordenador : String
  qtd_registros : Nat
  percentual : ℚ
deriving Repr, DecidableEq

/-- Lines 154-169 of `app.py`: the totals-table records of the selected
GRE+Polo, each enriched with the per-school coordinator flag and its
status label. -/
def registrosPolo (df_coord : List CoordRow) (df_total : List TotalRow)
    (gre polo : String) : List RegistroPolo :=
  (df_total.filter fun r => r.gre == gre && r.polo == polo).map fun r =>
    let tem := mapaCoordenador df_coord r.escola
    ({ gre := r.gre, polo := r.polo, escola := r.escola,
       tem_coordenador := tem,
       status_coordenador := statusCoordenador tem } : RegistroPolo)

/-- Lines 171-176 of `app.py`:
`groupby("STATUS_COORDENADOR").size()` — one `(status, record count)` pair
per distinct status label. -/
def gruposStatus (trp : List RegistroPolo) : List (String × Nat) :=
  ((trp.map (·.status_coordenador)).dedup).map fun s =>
    (s, (trp.filter fun r => r.status_coordenador == s).length)

/-- Embeds `resumo_status_polo` (lines 144-181 of `app.py`): filter the totals
table to the selected GRE+Polo, enrich each record with the per-school
coordinator flag, group by status label counting records, and attach each
group's share of the total (rational division sends the vacuous 0/0 case,
handled by `.fillna(0)` in the code, to 0). -/
def resumo_status_polo (df_coord : List CoordRow) (df_total : List TotalRow)
    (gre polo : String) : List StatusRow × List RegistroPolo :=
  let total_registros_polo := registrosPolo df_coord df_total gre polo
  let grupos := gruposStatus total_registros_polo
  let total := (grupos.map (·.2)).sum
  let resumo := grupos.map fun p =>
    ({ status_coordenador := p.1, qtd_registros := p.2,
       percentual := (p.2 : ℚ) / (total : ℚ) * 100 } : StatusRow)
  (resumo, total_registros_polo)

/-- A row of the per-school auxiliary table built by
`df_coord.groupby("ESCOLA").agg(...)` (lines 196-205 of `app.py`).
pandas `"first"` aggregation returns the first non-null value of the group,
hence the `Option` results. -/
structure AuxRow where
  escola : String
  inep : Option String
  coordenador : Option String
  tem_coordenador : Bool
  status_coordenador : Option String
deriving Repr, DecidableEq

/-- The auxiliary per-school table of `detalhe_escolas`: one row per
distinct school of the coordinator table, with first non-null INEP, first
non-null coordinator name, OR-reduced flag, and first status label. -/
def aux_escolas (df_coord : List CoordRow) : List AuxRow :=
  ((df_coord.map (·.escola)).dedup).map fun e =>
    let grupo := df_coord.filter fun r => r.escola == e
    { escola := e,
      inep := (grupo.filterMap (·.inep)).head?,
      coordenador := (grupo.filterMap (·.coordenador)).head?,
      tem_coordenador := grupo.any (·.tem_coordenador),
      status_coordenador := (grupo.map (·.status_coordenador)).head? }

/-- A row of the final display table of `detalhe_escolas`. -/
structure DetailRow where
  gre : String
  polo : String
  escola : String
  inep : Option String
  coordenador : String
  status_coordenador : String
deriving Repr, DecidableEq

/-- Embeds `detalhe_escolas` (lines 184-228 of `app.py`), at row level: the
region+hub slice of the totals table, left-merged on school name with the
auxiliary per-school table, with `fillna("Sem informação")` on the
coordinator name and `fillna("Sem Coordenador")` on the status. -/
def detalhe_escolas (df_coord : List CoordRow) (df_total : List TotalRow)
    (gre polo : String) : List DetailRow :=
  let registros := df_total.filter fun r => r.gre == gre && r.polo == polo
  let aux := aux_escolas df_coord
  (leftMergeOn registros aux (·.escola) (·.escola)).map fun p =>
    { gre := p.1.gre, polo := p.1.polo, escola := p.1.escola,
      inep := p.2.bind (·.inep),
      coordenador := (p.2.bind (·.coordenador)).getD "Sem informação",
      status_coordenador :=
        (p.2.bind (·.status_coordenador)).getD "Sem Coordenador" }

/-- Column-level semantics of `pd.merge(left, right, on=key)`: columns of
the left frame in order (a non-key column also present on the right gets
suffix `_x`), then the right frame's non-key columns (suffix `_y` when also
present on the left). -/
def mergeColumns (leftCols rightCols : List String) (key : String) :
    List String :=
  (leftCols.map fun c =>
      if c != key && rightCols.contains c then c ++ "_x" else c)
    ++ ((rightCols.filter fun c => c != key).map fun c =>
      if leftCols.contains c then c ++ "_y" else c)

/-- The columns of the auxiliary table `aux` of `detalhe_escolas`: the
group key `ESCOLA` restored by `reset_index`, then the aggregated columns
in the order of the `agg` dictionary (lines 196-205 of `app.py`). -/
def auxColumns : List String :=
  ["ESCOLA", "INEP", "COORDENADOR", "TEM_COORDENADOR", "STATUS_COORDENADOR"]

/-- Column-level semantics of `detalhe_escolas` (lines 207-228 of
`app.py`): the totals slice is merged with `aux` on `ESCOLA`, then
`colunas_finais` keeps `GRE`, `POLO` and `INEP` only when those exact names
survive in the merged frame, always adds `ESCOLA`, `COORDENADOR` and
`STATUS_COORDENADOR`, and the final `registros[colunas_finais]` selection
fails (`none`) when a requested name is absent from the merged frame. -/
def detalhe_colunas (totalCols : List String) : Option (List String) :=
  let mergedCols := mergeColumns totalCols auxColumns "ESCOLA"
  let colunas_finais :=
    (if "GRE" ∈ mergedCols then ["GRE"] else [])
      ++ (if "POLO" ∈ mergedCols then ["POLO"] else [])
      ++ ["ESCOLA"]
      ++ (if "INEP" ∈ mergedCols then ["INEP"] else [])
      ++ ["COORDENADOR", "STATUS_COORDENADOR"]
  if ∀ col ∈ colunas_finais, col ∈ mergedCols then
    some colunas_finais
  else none

/-!  ## Supporting lemmas  -/

/-- When the right side's keys are distinct, filtering it by one key yields
at most one row: the one `find?` locates. -/
lemma filter_key_eq_find_toList {β : Type} (right : List β) (rk : β → String)
    (k : String) (h : (right.map rk).Nodup) :
    right.filter (fun b => rk b == k) = (right.find? fun b => rk b == k).toList := by
  induction right with
  | nil => rfl
  | cons b r ih =>
    simp only [List.map_cons, List.nodup_cons] at h
    by_cases hb : rk b == k
    · have hbk : rk b = k := by simpa using hb
      have hr : r.filter (fun x => rk x == k) = [] := by
        rw [List.filter_eq_nil_iff]
        intro x hx hxk
        exact h.1 (List.mem_map.mpr ⟨x, hx, by simp_all⟩)
      simp [List.filter_cons, List.find?_cons, hb, hr]
    · simp [List.filter_cons, List.find?_cons, hb, ih h.2]

/-- A left merge whose right side has distinct keys is just a `find?`
lookup for each left row. -/
lemma leftMergeOn_eq_map_find {α β : Type} (left : List α) (right : List β)
    (lk : α → String) (rk : β → String) (h : (right.map rk).Nodup) :
    leftMergeOn left right lk rk
      = left.map fun a => (a, right.find? fun b => rk b == lk a) := by
  unfold leftMergeOn
  induction left with
  | nil => rfl
  | cons a l ih =>
    simp only [List.flatMap_cons, List.map_cons]
    rw [filter_key_eq_find_toList right rk (lk a) h]
    cases hf : right.find? fun b => rk b == lk a <;> simp_all

/-- Evaluates `find?` on a key-value table built over a list of keys. -/
lemma find_keyed (keys : List String) (v : String → Nat) (g : String) :
    ((keys.map fun k => (k, v k)).find? fun p => p.1 == g)
      = if g ∈ keys then some (g, v g) else none := by
  induction keys with
  | nil => simp
  | cons k ks ih =>
    by_cases hk : k = g
    · subst hk
      simp [List.find?_cons]
    · simp [List.find?_cons, hk, ih, List.mem_cons, Ne.symm hk]

/-- Distinct counts are monotone under list inclusion. -/
lemma nunique_le_of_subset {l1 l2 : List String} (h : ∀ x ∈ l1, x ∈ l2) :
    nunique l1 ≤ nunique l2 := by
  have hsub : l1.dedup ⊆ l2.dedup := fun x hx =>
    List.mem_dedup.mpr (h x (List.mem_dedup.mp hx))
  exact (List.subperm_of_subset (List.nodup_dedup l1) hsub).length_le

/-- Group sizes partition a list: summing the size of every group of a
`groupby` recovers the length of the list. -/
lemma sum_group_sizes {α : Type} (l : List α) (f : α → String) :
    (((l.map f).dedup).map fun s => (l.filter fun x => f x == s).length).sum
      = l.length := by
  have h := List.sum_map_count_dedup_eq_length (l.map f)
  rw [List.length_map] at h
  rw [← h]
  congr 1
  apply List.map_congr_left
  intro s _
  rw [List.count_eq_countP, List.countP_map, List.countP_eq_length_filter]
  rfl

/-- Distinct schools of a region, totals side. -/
def escolasGre (t : List TotalRow) (g : String) : Nat :=
  nunique ((t.filter fun r => r.gre == g).map (·.escola))

/-- Distinct coordinated schools of a region, coordinator side. -/
def escolasComCoordGre (c : List CoordRow) (g : String) : Nat :=
  nunique (((c.filter (·.tem_coordenador)).filter
    fun r => r.gre == g).map (·.escola))

/-- The summary row `agg_por_gre` builds for a region of the totals
table. -/
def aggRowForGre (c : List CoordRow) (t : List TotalRow) (g : String) :
    AggRow :=
  { key := g, total_escolas := escolasGre t g,
    escolas_com_coord := escolasComCoordGre c g,
    perc_com_coord :=
      (escolasComCoordGre c g : ℚ) / (escolasGre t g : ℚ) * 100 }

/-- The first projection of a `groupNunique` table is the deduplicated key
column. -/
lemma groupNunique_keys {α : Type} (rows : List α) (key val : α → String) :
    (groupNunique rows key val).map (·.1) = (rows.map key).dedup := by
  simp [groupNunique, List.map_map, Function.comp_def]

/-- Normal form of `agg_por_gre`: one summary row per distinct region of
the totals table, sorted by descending percentage. -/
lemma agg_por_gre_eq (c : List CoordRow) (t : List TotalRow) :
    agg_por_gre c t
      = sortDesc (((t.map (·.gre)).dedup).map (aggRowForGre c t)) := by
  simp only [agg_por_gre]
  congr 1
  rw [leftMergeOn_eq_map_find _ _ _ _
    (by rw [groupNunique_keys]; exact List.nodup_dedup _)]
  rw [show groupNunique t (·.gre) (·.escola)
        = ((t.map (·.gre)).dedup).map
            (fun k => (k, nunique ((t.filter
              fun r => r.gre == k).map (·.escola)))) from rfl]
  rw [List.map_map, List.map_map]
  apply List.map_congr_left
  intro g _
  dsimp only [Function.comp]
  rw [show (groupNunique (c.filter (·.tem_coordenador)) (·.gre) (·.escola))
        = (((c.filter (·.tem_coordenador)).map (·.gre)).dedup).map
            (fun k => (k, nunique (((c.filter (·.tem_coordenador)).filter
              fun r => r.gre == k).map (·.escola)))) from rfl]
  rw [find_keyed]
  by_cases hg : g ∈ ((c.filter (·.tem_coordenador)).map (·.gre)).dedup
  · simp only [hg, if_pos]
    rfl
  · simp only [hg, if_neg, not_false_iff]
    have hempty : (c.filter (·.tem_coordenador)).filter (fun r => r.gre == g)
        = [] := by
      rw [List.filter_eq_nil_iff]
      intro x hx hxg
      exact hg (List.mem_dedup.mpr
        (List.mem_map.mpr ⟨x, hx, by simpa using hxg⟩))
    simp [mkAggRow, aggRowForGre, escolasComCoordGre, escolasGre, hempty,
      nunique]

/-- Sorting permutes: `sortDesc` is a permutation of its input. -/
lemma sortDesc_perm (l : List AggRow) : List.Perm (sortDesc l) l :=
  List.perm_insertionSort percGE l

/-- Sorting orders: `sortDesc` sorts by descending percentage. -/
lemma sortDesc_sorted (l : List AggRow) : List.Sorted percGE (sortDesc l) :=
  List.sorted_insertionSort percGE l

/-- Membership in the per-GRE summary. -/
lemma mem_agg_por_gre {c : List CoordRow} {t : List TotalRow} {r : AggRow} :
    r ∈ agg_por_gre c t
      ↔ ∃ g ∈ (t.map (·.gre)).dedup, aggRowForGre c t g = r := by
  rw [agg_por_gre_eq]
  exact (sortDesc_perm _).mem_iff.trans List.mem_map

/-!  ## Concrete tables used by witnesses and counterexamples  -/

/-- The scenario of spec §8: region R1 with schools A (no information) and
B (coordinator "João") in the coordinator table. -/
def coordEx : List CoordRow :=
  load_data_coordenadores
    [⟨"R1", none, "A", none, "P1", some "Sem informação"⟩,
     ⟨"R1", none, "B", none, "P1", some "João"⟩]

/-- The scenario of spec §8: totals table with schools A, B, C in region
R1, hub P1. -/
def totalEx : List TotalRow :=
  [⟨"R1", "P1", "A"⟩, ⟨"R1", "P1", "B"⟩, ⟨"R1", "P1", "C"⟩]

/-- A coordinator table with two coordinated schools that do not occur in
`totalBad`. -/
def coordBad : List CoordRow :=
  load_data_coordenadores
    [⟨"G1", none, "E1", none, "P1", some "Ana"⟩,
     ⟨"G1", none, "E2", none, "P1", some "Bia"⟩]

/-- A totals table with a single school, disjoint from `coordBad`'s
schools. -/
def totalBad : List TotalRow := [⟨"G1", "P1", "EX"⟩]

/-!  ## C1  -/

/-- C1 as stated: `TEM_COORDENADOR` holds iff the trimmed, lower-cased
coordinator differs from "sem informação", with an empty or missing value
also counting as "no information" (hence yielding `false`). -/
def claimC1 : Prop :=
  ∀ (raw : List CoordRaw) (r : CoordRow), r ∈ load_data_coordenadores raw →
    (r.tem_coordenador = true
      ↔ ¬ (pyToLower (pyStrip (r.coordenador.getD "")) = "sem informação"
            ∨ pyStrip (r.coordenador.getD "") = ""))

/-- C1 counterexample: a row with a missing coordinator value loads with
`TEM_COORDENADOR = true`, because after `fillna("")` the empty string is
not equal to "sem informação"; the claim predicts `false` there. -/
theorem claimC1_false : ¬ claimC1 := fun h =>
  absurd
    (h [⟨"G1", none, "E1", none, "P1", none⟩]
      ⟨"G1", none, "E1", none, "P1", none, true, "Com Coordenador"⟩
      (by decide))
    (by decide)

/-- C1 (amended): in the loaded coordinator table, `TEM_COORDENADOR` is
true iff the coordinator value, after trimming and lower-casing (missing
read as ""), differs from "sem informação"; in particular an empty or
missing value yields `TEM_COORDENADOR = true`. -/
theorem tem_coordenador_iff_ne_sem_informacao (raw : List CoordRaw)
    (r : CoordRow) (hr : r ∈ load_data_coordenadores raw) :
    r.tem_coordenador = true
      ↔ ¬ (pyToLower (pyStrip (r.coordenador.getD "")) = "sem informação") := by
  rcases List.mem_map.mp hr with ⟨a, _, rfl⟩
  simp [temCoordenador, load_data_coordenadores]

/-- C1 witness: the amended equivalence evaluated on a concrete loaded
row. -/
theorem tem_coordenador_iff_ne_sem_informacao_witness :
    ((⟨"G1", none, "E1", none, "P1", some "Ana", true,
        "Com Coordenador"⟩ : CoordRow).tem_coordenador = true
      ↔ ¬ (pyToLower (pyStrip ((some "Ana" : Option String).getD ""))
            = "sem informação")) :=
  tem_coordenador_iff_ne_sem_informacao
    [⟨"G1", none, "E1", none, "P1", some "Ana"⟩]
    ⟨"G1", none, "E1", none, "P1", some "Ana", true, "Com Coordenador"⟩
    (by decide)

/-!  ## C2  -/

/-- C2: the overall completion percentage equals (distinct coordinated
schools of the coordinator table) / (distinct schools of the totals table)
× 100, and is exactly 0 when the totals table has zero distinct schools
(no division error). -/
theorem calcular_percentual_formula (c : List CoordRow) (t : List TotalRow) :
    ((t.map (·.escola)).toFinset.card ≠ 0 →
        calcular_percentual_conclusao_diretores c t
          = ((((c.filter (·.tem_coordenador)).map (·.escola)).toFinset.card : ℚ)
              / ((t.map (·.escola)).toFinset.card : ℚ)) * 100)
      ∧ ((t.map (·.escola)).toFinset.card = 0 →
          calcular_percentual_conclusao_diretores c t = 0) := by
  simp only [List.card_toFinset]
  constructor
  · intro h
    simp [calcular_percentual_conclusao_diretores, nunique, h]
  · intro h
    simp [calcular_percentual_conclusao_diretores, nunique, h]

/-- C2 witness: the formula evaluated on the spec §8 scenario (1 of 3
schools coordinated). -/
theorem calcular_percentual_formula_witness :
    calcular_percentual_conclusao_diretores coordEx totalEx
      = ((((coordEx.filter (·.tem_coordenador)).map (·.escola)).toFinset.card : ℚ)
          / ((totalEx.map (·.escola)).toFinset.card : ℚ)) * 100 :=
  (calcular_percentual_formula coordEx totalEx).1 (by decide)

/-!  ## C3  -/

/-- C3 as stated: with at least one distinct school in the totals table,
the completion percentage always lies in [0, 100]. -/
def claimC3 : Prop :=
  ∀ (c : List CoordRow) (t : List TotalRow),
    (t.map (·.escola)).toFinset.card ≠ 0 →
    0 ≤ calcular_percentual_conclusao_diretores c t
      ∧ calcular_percentual_conclusao_diretores c t ≤ 100

/-- C3 counterexample: two coordinated schools absent from a one-school
totals table give 2/1 × 100 = 200 > 100. -/
theorem claimC3_false : ¬ claimC3 := fun h => by
  have h2 := (h coordBad totalBad (by decide)).2
  have e1 : nunique (totalBad.map (·.escola)) = 1 := by decide
  have e2 : nunique ((coordBad.filter (·.tem_coordenador)).map (·.escola))
      = 2 := by decide
  simp only [calcular_percentual_conclusao_diretores, e1, e2] at h2
  norm_num at h2

/-- C3 (amended): if moreover every coordinated school of the coordinator
table also occurs in the totals table, the completion percentage lies in
[0, 100]. -/
theorem calcular_percentual_mem_Icc (c : List CoordRow) (t : List TotalRow)
    (hne : (t.map (·.escola)).toFinset.card ≠ 0)
    (hsub : ∀ e ∈ (c.filter (·.tem_coordenador)).map (·.escola),
        e ∈ t.map (·.escola)) :
    0 ≤ calcular_percentual_conclusao_diretores c t
      ∧ calcular_percentual_conclusao_diretores c t ≤ 100 := by
  rw [List.card_toFinset] at hne
  have hle : nunique ((c.filter (·.tem_coordenador)).map (·.escola))
      ≤ nunique (t.map (·.escola)) := nunique_le_of_subset hsub
  simp only [calcular_percentual_conclusao_diretores, nunique] at hne ⊢
  rw [if_neg hne]
  constructor
  · positivity
  · have hd : (0 : ℚ) < (((t.map (·.escola)).dedup.length : ℚ)) := by
      exact_mod_cast Nat.pos_of_ne_zero hne
    have h1 : ((((c.filter (·.tem_coordenador)).map (·.escola)).dedup.length : ℚ)
        / ((t.map (·.escola)).dedup.length : ℚ)) ≤ 1 :=
      (div_le_one hd).mpr (by exact_mod_cast hle)
    calc ((((c.filter (·.tem_coordenador)).map (·.escola)).dedup.length : ℚ)
          / ((t.map (·.escola)).dedup.length : ℚ)) * 100
        ≤ 1 * 100 := mul_le_mul_of_nonneg_right h1 (by norm_num)
      _ = 100 := by norm_num

/-- C3 witness: the amended bounds evaluated on the spec §8 scenario. -/
theorem calcular_percentual_mem_Icc_witness :
    0 ≤ calcular_percentual_conclusao_diretores coordEx totalEx
      ∧ calcular_percentual_conclusao_diretores coordEx totalEx ≤ 100 :=
  calcular_percentual_mem_Icc coordEx totalEx (by decide) (by decide)

/-!  ## C4  -/

/-- The per-GRE summary has as many rows as the totals table has distinct
regions. -/
lemma agg_por_gre_length (c : List CoordRow) (t : List TotalRow) :
    (agg_por_gre c t).length = ((t.map (·.gre)).dedup).length := by
  rw [agg_por_gre_eq, (sortDesc_perm _).length_eq, List.length_map]

/-- A coordinator table whose only row is uncoordinated (sentinel value
"Sem informação"), in region R1. -/
def coordSem : List CoordRow :=
  load_data_coordenadores
    [⟨"R1", none, "A", none, "P1", some "Sem informação"⟩]

/-- C4: the per-GRE summary has one row per distinct region of the totals
table: its row count is the number of distinct regions there, a region
occurs as a key iff it occurs in the totals table (so a region present
only in the coordinator table produces no row), and a region of the totals
table with no coordinated school still appears, with coordinated count
zero. -/
theorem agg_por_gre_regions (c : List CoordRow) (t : List TotalRow) :
    (agg_por_gre c t).length = (t.map (·.gre)).toFinset.card
      ∧ (∀ g : String,
          (∃ r ∈ agg_por_gre c t, r.key = g) ↔ g ∈ t.map (·.gre))
      ∧ ∀ g : String, g ∈ t.map (·.gre) →
          (∀ r ∈ c, r.gre = g → r.tem_coordenador = false) →
          ∃ r ∈ agg_por_gre c t, r.key = g ∧ r.escolas_com_coord = 0 := by
  refine ⟨?_, ?_, ?_⟩
  · rw [agg_por_gre_length, List.card_toFinset]
  · intro g
    constructor
    · rintro ⟨r, hr, hk⟩
      rcases mem_agg_por_gre.mp hr with ⟨g0, hg0, rfl⟩
      have hkey : g0 = g := hk
      subst hkey
      exact List.mem_dedup.mp hg0
    · intro hg
      exact ⟨aggRowForGre c t g,
        mem_agg_por_gre.mpr ⟨g, List.mem_dedup.mpr hg, rfl⟩, rfl⟩
  · intro g hg hnone
    refine ⟨aggRowForGre c t g,
      mem_agg_por_gre.mpr ⟨g, List.mem_dedup.mpr hg, rfl⟩, rfl, ?_⟩
    have hempty : (c.filter (·.tem_coordenador)).filter (fun r => r.gre == g)
        = [] := by
      rw [List.filter_eq_nil_iff]
      intro x hx hxg
      have hxc := List.of_mem_filter hx
      have hxm := List.mem_of_mem_filter hx
      have hxg2 : x.gre = g := by simpa using hxg
      have := hnone x hxm hxg2
      simp_all
    simp [aggRowForGre, escolasComCoordGre, hempty, nunique]

/-- C4 witness: region R1 of the totals table has no coordinated school in
`coordSem`, and still gets a summary row, with coordinated count 0. -/
theorem agg_por_gre_regions_witness :
    ∃ r ∈ agg_por_gre coordSem totalEx,
      r.key = "R1" ∧ r.escolas_com_coord = 0 :=
  (agg_por_gre_regions coordSem totalEx).2.2 "R1" (by decide) (by decide)

/-!  ## C5  -/

/-- C5 as stated: every summary row has at least as many total schools as
coordinated schools. -/
def claimC5 : Prop :=
  ∀ (c : List CoordRow) (t : List TotalRow),
    ∀ r ∈ agg_por_gre c t, r.escolas_com_coord ≤ r.total_escolas

/-- C5 counterexample: with two coordinated schools in region G1 of the
coordinator table and a single (different) school in region G1 of the
totals table, the G1 row reports 2 coordinated schools out of 1. -/
theorem claimC5_false : ¬ claimC5 := fun h => by
  have hr := h coordBad totalBad (aggRowForGre coordBad totalBad "G1")
    (mem_agg_por_gre.mpr ⟨"G1", by decide, rfl⟩)
  revert hr
  decide

/-- C5 (amended): a summary row satisfies total ≥ coordinated whenever the
coordinated schools recorded for its region in the coordinator table all
occur among that region's schools in the totals table (the school columns
are joined by plain string equality, so a school present only in the
coordinator table breaks the bound, as the counterexample shows). -/
theorem agg_por_gre_total_ge (c : List CoordRow) (t : List TotalRow)
    (r : AggRow) (hr : r ∈ agg_por_gre c t)
    (hsub : ∀ e ∈ (((c.filter (·.tem_coordenador)).filter
          fun x => x.gre == r.key).map (·.escola)),
        e ∈ ((t.filter fun x => x.gre == r.key).map (·.escola))) :
    r.escolas_com_coord ≤ r.total_escolas := by
  rcases mem_agg_por_gre.mp hr with ⟨g, _, rfl⟩
  exact nunique_le_of_subset hsub

/-- C5 witness: the bound holds on the spec §8 scenario, where school B is
coordinated and also belongs to the totals table. -/
theorem agg_por_gre_total_ge_witness :
    (aggRowForGre coordEx totalEx "R1").escolas_com_coord
      ≤ (aggRowForGre coordEx totalEx "R1").total_escolas :=
  agg_por_gre_total_ge coordEx totalEx (aggRowForGre coordEx totalEx "R1")
    (mem_agg_por_gre.mpr ⟨"R1", by decide, rfl⟩) (by decide)

/-!  ## C6  -/

/-- The per-Polo summary has as many rows as the region slice of the
totals table has distinct hubs. -/
lemma agg_por_polo_length (c : List CoordRow) (t : List TotalRow)
    (g : String) :
    (agg_por_polo c t g).length
      = (((t.filter fun r => r.gre == g).map (·.polo)).dedup).length := by
  simp only [agg_por_polo]
  rw [(sortDesc_perm _).length_eq, List.length_map,
    leftMergeOn_eq_map_find _ _ _ _
      (by rw [groupNunique_keys]; exact List.nodup_dedup _),
    List.length_map]
  simp [groupNunique]

/-- C6: both the per-GRE and the per-Polo summaries are sorted by
percentage in descending order: adjacent rows have non-increasing
`perc_com_coord`. -/
theorem agg_sorted_desc (c : List CoordRow) (t : List TotalRow) (g : String)
    (i j : Nat) (h1 : i + 1 < (agg_por_gre c t).length)
    (h2 : j + 1 < (agg_por_polo c t g).length) :
    ((agg_por_gre c t).get ⟨i + 1, h1⟩).perc_com_coord
        ≤ ((agg_por_gre c t).get
            ⟨i, Nat.lt_of_succ_lt h1⟩).perc_com_coord
      ∧ ((agg_por_polo c t g).get ⟨j + 1, h2⟩).perc_com_coord
        ≤ ((agg_por_polo c t g).get
            ⟨j, Nat.lt_of_succ_lt h2⟩).perc_com_coord := by
  constructor
  · have hs : List.Sorted percGE (agg_por_gre c t) := by
      rw [agg_por_gre_eq]
      exact sortDesc_sorted _
    exact List.pairwise_iff_get.mp hs ⟨i, Nat.lt_of_succ_lt h1⟩ ⟨i + 1, h1⟩
      (by simp [Fin.lt_def])
  · have hs : List.Sorted percGE (agg_por_polo c t g) := by
      simp only [agg_por_polo]
      exact sortDesc_sorted _
    exact List.pairwise_iff_get.mp hs ⟨j, Nat.lt_of_succ_lt h2⟩ ⟨j + 1, h2⟩
      (by simp [Fin.lt_def])

/-- A totals table with two regions and, inside G1, two hubs. -/
def totalW : List TotalRow :=
  [⟨"G1", "P1", "E1"⟩, ⟨"G1", "P2", "E2"⟩, ⟨"G2", "P1", "E3"⟩]

/-- C6 witness: the adjacent-row inequalities on a concrete pair of
two-row summaries. -/
theorem agg_sorted_desc_witness :
    ((agg_por_gre ([] : List CoordRow) totalW).get
        ⟨1, by rw [agg_por_gre_length]; decide⟩).perc_com_coord
      ≤ ((agg_por_gre ([] : List CoordRow) totalW).get
          ⟨0, by rw [agg_por_gre_length]; decide⟩).perc_com_coord
    ∧ ((agg_por_polo ([] : List CoordRow) totalW "G1").get
        ⟨1, by rw [agg_por_polo_length]; decide⟩).perc_com_coord
      ≤ ((agg_por_polo ([] : List CoordRow) totalW "G1").get
          ⟨0, by rw [agg_por_polo_length]; decide⟩).perc_com_coord :=
  agg_sorted_desc ([] : List CoordRow) totalW "G1" 0 0
    (by rw [agg_por_gre_length]; decide)
    (by rw [agg_por_polo_length]; decide)

/-!  ## C7  -/

/-- The sizes of the status groups sum to the number of records. -/
lemma sum_gruposStatus (trp : List RegistroPolo) :
    ((gruposStatus trp).map (·.2)).sum = trp.length := by
  simpa [gruposStatus, List.map_map, Function.comp_def] using
    sum_group_sizes trp (·.status_coordenador)

/-- C7: in the status summary of a selected region and hub, the group
sizes (`qtd_registros`) sum to the number of totals-table records of that
region and hub. -/
theorem resumo_status_polo_sum (c : List CoordRow) (t : List TotalRow)
    (gre polo : String) :
    (((resumo_status_polo c t gre polo).1).map (·.qtd_registros)).sum
      = (t.filter fun r => r.gre == gre && r.polo == polo).length := by
  simp only [resumo_status_polo, List.map_map, Function.comp_def]
  rw [sum_gruposStatus]
  simp [registrosPolo]

/-!  ## C8  -/

/-- C8: when the selected region and hub match no totals-table record, the
status summary is empty (no status groups, zero total) and the enriched
record table is empty; no division error occurs. -/
theorem resumo_status_polo_of_empty (c : List CoordRow) (t : List TotalRow)
    (gre polo : String)
    (h : t.filter (fun r => r.gre == gre && r.polo == polo) = []) :
    (resumo_status_polo c t gre polo).1 = []
      ∧ (resumo_status_polo c t gre polo).2 = []
      ∧ (((resumo_status_polo c t gre polo).1).map (·.qtd_registros)).sum
          = 0 := by
  simp [resumo_status_polo, registrosPolo, gruposStatus, h]

/-- C8 witness: a region and hub absent from the totals table produce the
empty summary. -/
theorem resumo_status_polo_of_empty_witness :
    (resumo_status_polo coordEx totalEx "R9" "P9").1 = []
      ∧ (resumo_status_polo coordEx totalEx "R9" "P9").2 = []
      ∧ (((resumo_status_polo coordEx totalEx "R9" "P9").1).map
          (·.qtd_registros)).sum = 0 :=
  resumo_status_polo_of_empty coordEx totalEx "R9" "P9" (by decide)

/-!  ## C9  -/

/-- The auxiliary per-school table has the distinct schools of the
coordinator table as its key column. -/
lemma aux_escolas_keys (c : List CoordRow) :
    (aux_escolas c).map (·.escola) = (c.map (·.escola)).dedup := by
  simp [aux_escolas, List.map_map, Function.comp_def]

/-- C9: the detail table has exactly one row per totals-table record of
the selected region and hub: the left join onto the per-school auxiliary
table neither drops nor duplicates rows (its keys are distinct schools). -/
theorem detalhe_escolas_length (c : List CoordRow) (t : List TotalRow)
    (gre polo : String) :
    (detalhe_escolas c t gre polo).length
      = (t.filter fun r => r.gre == gre && r.polo == polo).length := by
  simp only [detalhe_escolas]
  rw [leftMergeOn_eq_map_find _ _ _ _
      (by rw [aux_escolas_keys]; exact List.nodup_dedup _),
    List.length_map, List.length_map]

/-!  ## C10  -/

/-- A string obtained by appending a fixed suffix cannot equal a string
that does not end with that suffix. -/
lemma append_ne_of_not_suffix {s x : String} (c : String)
    (h : ¬ s.data <:+ x.data) : c ++ s ≠ x := by
  intro he
  exact h (he ▸ ⟨c.data, by simp⟩)

/-- Which plain (unsuffixed) names occur among the merged columns: a left
column that did not collide, or a non-key right column absent on the
left. -/
lemma mem_mergeColumns_iff {L R : List String} {key x : String}
    (hx : ¬ ("_x" : String).data <:+ x.data)
    (hy : ¬ ("_y" : String).data <:+ x.data) :
    x ∈ mergeColumns L R key
      ↔ (x ∈ L ∧ (x = key ∨ x ∉ R)) ∨ (x ∈ R ∧ x ≠ key ∧ x ∉ L) := by
  unfold mergeColumns
  simp only [List.mem_append, List.mem_map, List.mem_filter]
  constructor
  · rintro (⟨c, hc, he⟩ | ⟨c, ⟨hcR, hck⟩, he⟩)
    · by_cases hcond : (c != key && R.contains c) = true
      · rw [if_pos hcond] at he
        exact absurd he (append_ne_of_not_suffix c hx)
      · rw [if_neg hcond] at he
        subst he
        left
        refine ⟨hc, ?_⟩
        rcases Bool.and_eq_false_iff.mp (Bool.eq_false_iff.mpr hcond) with h1 | h2
        · exact Or.inl (by simpa using h1)
        · exact Or.inr (by simpa [List.contains] using h2)
    · by_cases hcond : (L.contains c) = true
      · rw [if_pos hcond] at he
        exact absurd he (append_ne_of_not_suffix c hy)
      · rw [if_neg hcond] at he
        subst he
        right
        exact ⟨hcR, by simpa using hck, by simpa [List.contains] using hcond⟩
  · rintro (⟨hL, hk⟩ | ⟨hR, hk, hnL⟩)
    · left
      refine ⟨x, hL, if_neg ?_⟩
      rcases hk with hk | hk
      · simp [hk]
      · simp [List.contains, hk]
    · right
      refine ⟨x, ⟨hR, by simpa using hk⟩, if_neg (by simpa [List.contains] using hnL)⟩

/-- C10 as stated: the detail table's columns are region, hub, school,
identifier, coordinator, status in that fixed order, with the region, hub
and identifier columns omitted exactly when the totals table lacks them. -/
def claimC10 : Prop :=
  ∀ totalCols : List String, "ESCOLA" ∈ totalCols →
    detalhe_colunas totalCols
      = some ((if "GRE" ∈ totalCols then ["GRE"] else [])
          ++ (if "POLO" ∈ totalCols then ["POLO"] else [])
          ++ ["ESCOLA"]
          ++ (if "INEP" ∈ totalCols then ["INEP"] else [])
          ++ ["COORDENADOR", "STATUS_COORDENADOR"])

/-- C10 counterexample: when the totals table has its own INEP column, the
merge suffixes both INEP columns (`INEP_x`/`INEP_y`), so the plain name
`INEP` is absent from the merged frame and the output omits it — the
opposite of the claim. -/
theorem claimC10_false : ¬ claimC10 := fun h =>
  absurd (h ["GRE", "POLO", "ESCOLA", "INEP"] (by decide)) (by decide)

/-- C10 (amended): with the required region, hub and school columns
present in the totals table and no colliding coordinator/status columns,
the output columns are region, hub, school, identifier, coordinator,
status in that fixed order — but the identifier column is included exactly
when the totals table *lacks* its own identifier column (it comes from the
coordinator table; when the totals table has one, both copies are suffixed
by the join and the plain name is omitted). -/
theorem detalhe_colunas_spec (totalCols : List String)
    (hg : "GRE" ∈ totalCols) (hp : "POLO" ∈ totalCols)
    (he : "ESCOLA" ∈ totalCols)
    (hc : "COORDENADOR" ∉ totalCols)
    (hs : "STATUS_COORDENADOR" ∉ totalCols) :
    detalhe_colunas totalCols
      = some (["GRE", "POLO", "ESCOLA"]
          ++ (if "INEP" ∈ totalCols then [] else ["INEP"])
          ++ ["COORDENADOR", "STATUS_COORDENADOR"]) := by
  have hGRE : "GRE" ∈ mergeColumns totalCols auxColumns "ESCOLA" :=
    (mem_mergeColumns_iff (by decide) (by decide)).mpr
      (Or.inl ⟨hg, Or.inr (by decide)⟩)
  have hPOLO : "POLO" ∈ mergeColumns totalCols auxColumns "ESCOLA" :=
    (mem_mergeColumns_iff (by decide) (by decide)).mpr
      (Or.inl ⟨hp, Or.inr (by decide)⟩)
  have hESC : "ESCOLA" ∈ mergeColumns totalCols auxColumns "ESCOLA" :=
    (mem_mergeColumns_iff (by decide) (by decide)).mpr
      (Or.inl ⟨he, Or.inl rfl⟩)
  have hCOORD : "COORDENADOR" ∈ mergeColumns totalCols auxColumns "ESCOLA" :=
    (mem_mergeColumns_iff (by decide) (by decide)).mpr
      (Or.inr ⟨by decide, by decide, hc⟩)
  have hSTATUS :
      "STATUS_COORDENADOR" ∈ mergeColumns totalCols auxColumns "ESCOLA" :=
    (mem_mergeColumns_iff (by decide) (by decide)).mpr
      (Or.inr ⟨by decide, by decide, hs⟩)
  have hINEP : ("INEP" ∈ mergeColumns totalCols auxColumns "ESCOLA")
      ↔ "INEP" ∉ totalCols := by
    rw [mem_mergeColumns_iff (by decide) (by decide)]
    constructor
    · rintro (⟨_, hor⟩ | ⟨_, _, hni⟩)
      · rcases hor with h1 | h2
        · exact absurd h1 (by decide)
        · exact absurd (by decide : "INEP" ∈ auxColumns) h2
      · exact hni
    · intro hni
      exact Or.inr ⟨by decide, by decide, hni⟩
  by_cases hi : "INEP" ∈ totalCols
  · have hnm : "INEP" ∉ mergeColumns totalCols auxColumns "ESCOLA" :=
      fun hmem => (hINEP.mp hmem) hi
    simp [detalhe_colunas, hGRE, hPOLO, hESC, hCOORD, hSTATUS, hnm, hi]
  · have hm : "INEP" ∈ mergeColumns totalCols auxColumns "ESCOLA" :=
      hINEP.mpr hi
    simp [detalhe_colunas, hGRE, hPOLO, hESC, hCOORD, hSTATUS, hm, hi]

/-- C10 witness: the amended column list on a totals table with exactly
the region, hub and school columns. -/
theorem detalhe_colunas_spec_witness :
    detalhe_colunas ["GRE", "POLO", "ESCOLA"]
      = some (["GRE", "POLO", "ESCOLA"]
          ++ (if "INEP" ∈ (["GRE", "POLO", "ESCOLA"] : List String) then []
              else ["INEP"])
          ++ ["COORDENADOR", "STATUS_COORDENADOR"]) :=
  detalhe_colunas_spec ["GRE", "POLO", "ESCOLA"] (by decide) (by decide)
    (by decide) (by decide) (by decide)

end Siave
